import Mathlib

/-!
Verification of `twisted/python/dist.py` — the build-configuration logic of
the repository: conditional extension descriptors, environment probes, the
Python-3 module allow-list filter (`PickyBuildPy.find_package_modules`), the
console-script selector (`getConsoleScripts`) and the setup-argument builder
(`get_setup_args`).

The embedding is shallow: Python lists become `List`, tuples become products,
module-level globals consumed by the functions (`_isCPython`, `sys.platform`,
`_PY3`, `modulesToInstall`, `testDataFiles`) become explicit parameters
gathered in a `BuildEnv` record or passed directly.
-/

namespace TwistedDist

/-- The environment a build runs in.  Packs the globals read by the extension
condition lambdas in `getExtensions`: `platform.python_implementation()`
(read through the cached `_isCPython`), `sys.platform`, `_PY3`, and the
builder's header probe `_check_header`. -/
structure BuildEnv where
  pythonImplementation : String
  platform : String
  py3 : Bool
  checkHeader : String → Bool

/-- `_checkCPython`: `platform.python_implementation() == "CPython"`. -/
def _checkCPython (impl : String) : Bool :=
  impl == "CPython"

/-- The module-level cached flag `_isCPython = _checkCPython()`, as a function
of the environment it is computed from. -/
def _isCPython (env : BuildEnv) : Bool :=
  _checkCPython env.pythonImplementation

/-- `ConditionalExtension` as declared in `getExtensions`: name, C sources,
link libraries and the inclusion condition (a lambda over the builder and the
module globals, both folded into `BuildEnv`). -/
structure Extension where
  name : String
  sources : List String
  libraries : List String := []
  condition : BuildEnv → Bool

/-- `twisted.test.raiser`: `condition=lambda _: _isCPython`. -/
def raiserExtension : Extension :=
  { name := "twisted.test.raiser"
    sources := ["twisted/test/raiser.c"]
    condition := fun env => _isCPython env }

/-- `twisted.internet.iocpreactor.iocpsupport`:
`condition=lambda _: _isCPython and sys.platform == "win32"`. -/
def iocpsupportExtension : Extension :=
  { name := "twisted.internet.iocpreactor.iocpsupport"
    sources := ["twisted/internet/iocpreactor/iocpsupport/iocpsupport.c",
                "twisted/internet/iocpreactor/iocpsupport/winsock_pointers.c"]
    libraries := ["ws2_32"]
    condition := fun env => _isCPython env && (env.platform == "win32") }

/-- `twisted.python._sendmsg`:
`condition=lambda _: not _PY3 and sys.platform != "win32"`. -/
def sendmsgExtension : Extension :=
  { name := "twisted.python._sendmsg"
    sources := ["twisted/python/_sendmsg.c"]
    condition := fun env => !env.py3 && !(env.platform == "win32") }

/-- `twisted.runner.portmap`:
`condition=lambda builder: not _PY3 and builder._check_header("rpc/rpc.h")`. -/
def portmapExtension : Extension :=
  { name := "twisted.runner.portmap"
    sources := ["twisted/runner/portmap.c"]
    condition := fun env => !env.py3 && env.checkHeader "rpc/rpc.h" }

/-- `getExtensions()`: the declared list of conditional extensions, in
declaration order. -/
def getExtensions : List Extension :=
  [raiserExtension, iocpsupportExtension, sendmsgExtension, portmapExtension]

/-- Modelled from the spec: the ExtensionSelector (spec §4.2) — the packaging
tool's build step that evaluates each descriptor's predicate against the
probe and keeps, in declaration order, exactly those whose predicate is true.
The selection loop itself lives in the external packaging tool, outside
`src/`; only the descriptors and predicates are in `src/`. -/
def selectExtensions (env : BuildEnv) : List Extension :=
  getExtensions.filter (fun e => e.condition env)

/-- The fully-qualified name `".".join([module[0], module[1]])` of a
`(package, module)` record. -/
def fqname (m : String × String) : String :=
  m.1 ++ "." ++ m.2

/-- `PickyBuildPy.find_package_modules`: keep each externally-discovered
`(package, module)` record whose fully-qualified name is in
`modulesToInstall` or in `testDataFiles`.  The two allow-lists are module
globals imported from `twisted.python._python3_port`; they are parameters
here. -/
def find_package_modules (modulesToInstall testDataFiles : List String)
    (modules : List (String × String)) : List (String × String) :=
  modules.filter
    (fun m => modulesToInstall.contains (fqname m) ||
              testDataFiles.contains (fqname m))

/-- One filtering pass in state-passing form: the pass returns the two
allow-lists it read alongside the filtered module list, recording that the
pass leaves the allow-lists untouched (the list comprehension only performs
`in` membership tests on them). -/
def find_package_modules_pass (modulesToInstall testDataFiles : List String)
    (modules : List (String × String)) :
    (List String × List String) × List (String × String) :=
  ((modulesToInstall, testDataFiles),
   find_package_modules modulesToInstall testDataFiles modules)

/-- The six console scripts not yet ported to Python 3 (`scripts` in
`getConsoleScripts`). -/
def scripts : List String :=
  ["cftp = twisted.conch.scripts.cftp:run",
   "ckeygen = twisted.conch.scripts.ckeygen:run",
   "conch = twisted.conch.scripts.conch:run",
   "mailmail = twisted.mail.scripts.mailmail:run",
   "pyhtmlizer = twisted.scripts.htmlizer:run",
   "tkconch = twisted.conch.scripts.tkconch:run"]

/-- `portedToPython3Scripts` in `getConsoleScripts`. -/
def portedToPython3Scripts : List String :=
  ["trial = twisted.scripts.trial:run",
   "twistd = twisted.scripts.twistd:run"]

/-- `getConsoleScripts()`: on Python 3 (`_PY3`) return the ported pool only,
otherwise the legacy-only pool followed by the ported pool. -/
def getConsoleScripts (py3 : Bool) : List String :=
  if py3 then portedToPython3Scripts
  else scripts ++ portedToPython3Scripts

/-- The subset of the setup keyword arguments built by `get_setup_args` that
carries decision logic: the version-dependent requirement pin, the console
scripts, and the optional `build_py` override (`cmdclass`).  The override is
the module-filtering pass of `PickyBuildPy`, closed over the two allow-list
globals. -/
structure SetupArgs where
  install_requires : List String
  console_scripts : List String
  cmdclass_build_py : Option (List (String × String) → List (String × String))
  include_package_data : Bool
  zip_safe : Bool

/-- `get_setup_args()`, as a function of `sys.version_info[0]` and of the two
allow-list globals.  The `cmdclass={'build_py': PickyBuildPy}` entry is added
only when `sys.version_info[0] >= 3`. -/
def get_setup_args (pyMajor : Nat) (modulesToInstall testDataFiles : List String) :
    SetupArgs :=
  { install_requires :=
      if 3 ≤ pyMajor then ["zope.interface >= 4.0.2"]
      else ["zope.interface >= 3.6.0"]
    console_scripts := getConsoleScripts (decide (3 ≤ pyMajor))
    cmdclass_build_py :=
      if 3 ≤ pyMajor then some (find_package_modules modulesToInstall testDataFiles)
      else none
    include_package_data := true
    zip_safe := false }

/-- Modelled from the spec: how the external packaging tool (the
BuildOrchestrator, spec §2, §4.3) turns the discovered module list into the
installed module list — the `cmdclass` override filters it when installed,
and the tool's stock `build_py` step installs the discovered modules
unchanged (identity transform) when no override is present.  The stock step
is external to `src/`. -/
def buildPyModules (args : SetupArgs)
    (discovered : List (String × String)) : List (String × String) :=
  match args.cmdclass_build_py with
  | some f => f discovered
  | none => discovered

/-- Modelled from the spec: outcome of one header-probe attempt by
`builder._check_header` (spec §4.1, §7), which is not under `src/` — only
its caller, the `twisted.runner.portmap` condition, is.  A probe either
test-compiles the snippet successfully, or the compiler rejects it, or the
compiler toolchain itself is absent. -/
inductive ProbeOutcome where
  | compiled
  | compileFailed
  | toolchainAbsent
deriving DecidableEq

/-- Modelled from the spec: `headerAvailable` (`_check_header`), spec §4.1 —
reports a header as available exactly when the probe snippet compiled;
both a compile failure and an absent toolchain are reported as `false`
rather than propagated as a fault. -/
def headerAvailable (probe : String → ProbeOutcome) (name : String) : Bool :=
  match probe name with
  | ProbeOutcome.compiled => true
  | ProbeOutcome.compileFailed => false
  | ProbeOutcome.toolchainAbsent => false

/-- A keyword-argument value as passed to `ConditionalExtension(...)` in this
repository: either the `condition` callable, or plain metadata (a string or
a list of strings such as `sources`/`libraries`). -/
inductive KwVal where
  | cond (f : BuildEnv → Bool)
  | str (s : String)
  | strList (l : List String)

/-- `kwargs.pop(key)` on a keyword-argument dictionary rendered as an
association list with distinct keys: return the value bound to `key` (if
any) together with the dictionary without that binding. -/
def popKw (key : String) : List (String × KwVal) →
    Option KwVal × List (String × KwVal)
  | [] => (none, [])
  | kv :: rest =>
    if kv.1 = key then (some kv.2, rest)
    else
      let r := popKw key rest
      (r.1, kv :: r.2)

/-- The state a `ConditionalExtension` holds after `__init__`: the stored
`condition` attribute and the keyword arguments forwarded to the base
`Extension` constructor. -/
structure CondExtState where
  condition : BuildEnv → Bool
  forwarded : List (String × KwVal)

/-- `ConditionalExtension.__init__`:
`self.condition = kwargs.pop("condition", lambda builder: True)` followed by
forwarding the remaining keyword arguments to `Extension.__init__`.  (In
this repository the `condition` key, when present, is always bound to a
callable, so the non-callable match arm is never taken.) -/
def ConditionalExtension_init (kwargs : List (String × KwVal)) : CondExtState :=
  let p := popKw "condition" kwargs
  { condition :=
      match p.1 with
      | some (KwVal.cond f) => f
      | some (KwVal.str _) => fun _ => true
      | some (KwVal.strList _) => fun _ => true
      | none => fun _ => true
    forwarded := p.2 }

/-! ## Helper lemmas -/

theorem contains_append (a : String) (l₁ l₂ : List String) :
    (l₁ ++ l₂).contains a = (l₁.contains a || l₂.contains a) := by
  induction l₁ with
  | nil => simp
  | cons x xs ih => simp [List.contains_cons, ih, Bool.or_assoc]

/-! ## Claims about the module filter -/

/-- C1: `find_package_modules` returns exactly the records whose
fully-qualified `package.module` name lies in the union of the
ported-modules allow-list and the test-data-files allow-list, in the
original input order — i.e. it equals the filter by membership in the
concatenation of the two allow-lists. -/
theorem find_package_modules_eq_union_filter
    (modulesToInstall testDataFiles : List String)
    (modules : List (String × String)) :
    find_package_modules modulesToInstall testDataFiles modules =
      modules.filter
        (fun m => (modulesToInstall ++ testDataFiles).contains (fqname m)) := by
  unfold find_package_modules
  apply List.filter_congr
  intro m _
  rw [contains_append]

/-- C3: the output of `find_package_modules` is a sublist of its input (so it
preserves the input's relative order and introduces no record absent from
the input), and a filtering pass hands the two allow-lists back unchanged. -/
theorem find_package_modules_sublist_and_readonly
    (modulesToInstall testDataFiles : List String)
    (modules : List (String × String)) :
    (find_package_modules modulesToInstall testDataFiles modules).Sublist modules ∧
    (∀ m ∈ find_package_modules modulesToInstall testDataFiles modules,
       m ∈ modules) ∧
    (find_package_modules_pass modulesToInstall testDataFiles modules).1 =
      (modulesToInstall, testDataFiles) := by
  refine ⟨List.filter_sublist modules, ?_, rfl⟩
  intro m hm
  exact (List.filter_sublist modules).subset hm

/-- C4: `find_package_modules` is idempotent — filtering its own output again
with the same two allow-lists yields the identical sequence. -/
theorem find_package_modules_idempotent
    (modulesToInstall testDataFiles : List String)
    (modules : List (String × String)) :
    find_package_modules modulesToInstall testDataFiles
        (find_package_modules modulesToInstall testDataFiles modules) =
      find_package_modules modulesToInstall testDataFiles modules := by
  unfold find_package_modules
  rw [List.filter_filter]
  apply List.filter_congr
  intro m _
  rw [Bool.and_self]

/-- C6: an empty allow-list (both the ported-modules list and the
test-data-files list empty) makes `find_package_modules` return the empty
sequence for every input. -/
theorem find_package_modules_empty_allowlist
    (modules : List (String × String)) :
    find_package_modules [] [] modules = [] := by
  unfold find_package_modules
  simp

/-! ## Claims about the script selector and setup arguments -/

/-- C2: `getConsoleScripts` returns, for the legacy generation (`_PY3` false),
the legacy-only pool followed by the ported pool with both pools fully
represented, and for the current generation (`_PY3` true) exactly the ported
pool. -/
theorem getConsoleScripts_spec :
    getConsoleScripts false = scripts ++ portedToPython3Scripts ∧
    (∀ s ∈ scripts, s ∈ getConsoleScripts false) ∧
    (∀ s ∈ portedToPython3Scripts, s ∈ getConsoleScripts false) ∧
    getConsoleScripts true = portedToPython3Scripts := by
  refine ⟨rfl, ?_, ?_, rfl⟩
  · intro s hs
    exact List.mem_append_left _ hs
  · intro s hs
    exact List.mem_append_right _ hs

/-- C5: `get_setup_args` installs the `PickyBuildPy` filtering build step
(`cmdclass`) only for Python 3: for major version 2 the result carries no
`build_py` override and the discovered modules pass through unfiltered,
while for major version 3 the override is exactly the allow-list filter. -/
theorem get_setup_args_cmdclass_spec
    (modulesToInstall testDataFiles : List String)
    (discovered : List (String × String)) :
    (get_setup_args 2 modulesToInstall testDataFiles).cmdclass_build_py = none ∧
    buildPyModules (get_setup_args 2 modulesToInstall testDataFiles) discovered =
      discovered ∧
    (get_setup_args 3 modulesToInstall testDataFiles).cmdclass_build_py =
      some (find_package_modules modulesToInstall testDataFiles) := by
  exact ⟨rfl, rfl, rfl⟩

/-! ## Claims about the capability probes and extension selection -/

/-- C7: a failed header probe — the compiler rejecting the snippet or the
compiler toolchain being absent — yields `headerAvailable = false` for that
header name instead of propagating a fault. -/
theorem headerAvailable_false_on_probe_failure
    (probe : String → ProbeOutcome) (name : String)
    (h : probe name = ProbeOutcome.compileFailed ∨
         probe name = ProbeOutcome.toolchainAbsent) :
    headerAvailable probe name = false := by
  unfold headerAvailable
  rcases h with h | h <;> rw [h]

/-- Closed instance of C7 at the one header this repository probes, with the
toolchain absent for every name. -/
theorem headerAvailable_false_on_probe_failure_witness :
    ((fun _ : String => ProbeOutcome.toolchainAbsent) "rpc/rpc.h" =
        ProbeOutcome.compileFailed ∨
     (fun _ : String => ProbeOutcome.toolchainAbsent) "rpc/rpc.h" =
        ProbeOutcome.toolchainAbsent) ∧
    headerAvailable (fun _ => ProbeOutcome.toolchainAbsent) "rpc/rpc.h" = false :=
  ⟨Or.inr rfl,
   headerAvailable_false_on_probe_failure
     (fun _ => ProbeOutcome.toolchainAbsent) "rpc/rpc.h" (Or.inr rfl)⟩

/-- C8: on any environment whose platform is not `"win32"`, the predicate of
the `iocpsupport` descriptor — the one requiring `platform == "win32"` —
evaluates to false, and no descriptor of that name survives extension
selection. -/
theorem iocpsupport_excluded_off_win32 (env : BuildEnv)
    (h : (env.platform == "win32") = false) :
    iocpsupportExtension.condition env = false ∧
    (selectExtensions env).all
      (fun e => e.name != "twisted.internet.iocpreactor.iocpsupport") = true := by
  have hcond : iocpsupportExtension.condition env = false := by
    simp only [iocpsupportExtension, h, Bool.and_false]
  refine ⟨hcond, ?_⟩
  rw [List.all_eq_true]
  intro e he
  simp only [selectExtensions] at he
  obtain ⟨hmem, hp⟩ := List.mem_filter.mp he
  simp only [getExtensions, List.mem_cons, List.not_mem_nil, or_false] at hmem
  rcases hmem with hmem | hmem | hmem | hmem <;> subst hmem
  · decide
  · rw [hcond] at hp
    exact absurd hp (by decide)
  · decide
  · decide

/-- A concrete non-Windows CPython environment, used to instantiate the
selection theorems. -/
def linuxCPythonEnv : BuildEnv :=
  { pythonImplementation := "CPython"
    platform := "linux2"
    py3 := false
    checkHeader := fun _ => true }

/-- Closed instance of C8 on a Linux environment. -/
theorem iocpsupport_excluded_off_win32_witness :
    (linuxCPythonEnv.platform == "win32") = false ∧
    (iocpsupportExtension.condition linuxCPythonEnv = false ∧
     (selectExtensions linuxCPythonEnv).all
       (fun e => e.name != "twisted.internet.iocpreactor.iocpsupport") = true) :=
  ⟨by decide, iocpsupport_excluded_off_win32 linuxCPythonEnv (by decide)⟩

/-- C9: on any environment whose interpreter implementation is not
`"CPython"`, `_checkCPython` reports false, the predicates of the two
descriptors requiring the reference interpreter (`raiser` and `iocpsupport`)
evaluate to false, and no descriptor of either name survives extension
selection. -/
theorem cpython_only_extensions_excluded (env : BuildEnv)
    (h : (env.pythonImplementation == "CPython") = false) :
    _checkCPython env.pythonImplementation = false ∧
    raiserExtension.condition env = false ∧
    iocpsupportExtension.condition env = false ∧
    (selectExtensions env).all
      (fun e => e.name != "twisted.test.raiser" &&
                e.name != "twisted.internet.iocpreactor.iocpsupport") = true := by
  have hcp : _checkCPython env.pythonImplementation = false := h
  have hraiser : raiserExtension.condition env = false := by
    simp only [raiserExtension, _isCPython, hcp]
  have hiocp : iocpsupportExtension.condition env = false := by
    simp only [iocpsupportExtension, _isCPython, hcp, Bool.false_and]
  refine ⟨hcp, hraiser, hiocp, ?_⟩
  rw [List.all_eq_true]
  intro e he
  simp only [selectExtensions] at he
  obtain ⟨hmem, hp⟩ := List.mem_filter.mp he
  simp only [getExtensions, List.mem_cons, List.not_mem_nil, or_false] at hmem
  rcases hmem with hmem | hmem | hmem | hmem <;> subst hmem
  · rw [hraiser] at hp
    exact absurd hp (by decide)
  · rw [hiocp] at hp
    exact absurd hp (by decide)
  · decide
  · decide

/-- A concrete PyPy-on-Windows environment, used to instantiate the
selection theorems: even on `"win32"` the CPython-only descriptors are
excluded when the interpreter is not CPython. -/
def win32PyPyEnv : BuildEnv :=
  { pythonImplementation := "PyPy"
    platform := "win32"
    py3 := false
    checkHeader := fun _ => true }

/-- Closed instance of C9 on a PyPy environment. -/
theorem cpython_only_extensions_excluded_witness :
    (win32PyPyEnv.pythonImplementation == "CPython") = false ∧
    (_checkCPython win32PyPyEnv.pythonImplementation = false ∧
     raiserExtension.condition win32PyPyEnv = false ∧
     iocpsupportExtension.condition win32PyPyEnv = false ∧
     (selectExtensions win32PyPyEnv).all
       (fun e => e.name != "twisted.test.raiser" &&
                 e.name != "twisted.internet.iocpreactor.iocpsupport") = true) :=
  ⟨by decide, cpython_only_extensions_excluded win32PyPyEnv (by decide)⟩

/-- Popping a key that is bound nowhere in the dictionary finds nothing and
leaves the dictionary unchanged. -/
theorem popKw_of_contains_false (key : String) (l : List (String × KwVal))
    (h : (l.map Prod.fst).contains key = false) : popKw key l = (none, l) := by
  induction l with
  | nil => rfl
  | cons kv rest ih =>
    simp only [List.map_cons, List.contains_cons, Bool.or_eq_false_iff] at h
    obtain ⟨hk, hrest⟩ := h
    have hne : kv.1 ≠ key := by
      intro heq
      rw [heq] at hk
      simp at hk
    simp only [popKw, if_neg hne, ih hrest]

/-- C10: constructing a `ConditionalExtension` whose keyword arguments carry
no `condition` binding stores the default inclusion predicate, which returns
`True` for every builder argument (so the extension is unconditionally
selected); the keyword arguments are forwarded to the base `Extension`
constructor intact and free of any `condition` binding. -/
theorem ConditionalExtension_init_default
    (kwargs : List (String × KwVal)) (builder : BuildEnv)
    (h : (kwargs.map Prod.fst).contains "condition" = false) :
    (ConditionalExtension_init kwargs).condition builder = true ∧
    (ConditionalExtension_init kwargs).forwarded = kwargs ∧
    ((ConditionalExtension_init kwargs).forwarded.map Prod.fst).contains
      "condition" = false := by
  unfold ConditionalExtension_init
  rw [popKw_of_contains_false "condition" kwargs h]
  exact ⟨rfl, rfl, h⟩

/-- Closed instance of C10: the keyword arguments of the `portmap`
declaration, minus its `condition` entry. -/
theorem ConditionalExtension_init_default_witness :
    (([("sources", KwVal.strList ["twisted/runner/portmap.c"]),
       ("libraries", KwVal.strList [])].map Prod.fst).contains "condition"
       = false) ∧
    ((ConditionalExtension_init
        [("sources", KwVal.strList ["twisted/runner/portmap.c"]),
         ("libraries", KwVal.strList [])]).condition linuxCPythonEnv = true ∧
     (ConditionalExtension_init
        [("sources", KwVal.strList ["twisted/runner/portmap.c"]),
         ("libraries", KwVal.strList [])]).forwarded =
       [("sources", KwVal.strList ["twisted/runner/portmap.c"]),
        ("libraries", KwVal.strList [])] ∧
     (((ConditionalExtension_init
          [("sources", KwVal.strList ["twisted/runner/portmap.c"]),
           ("libraries", KwVal.strList [])]).forwarded.map Prod.fst).contains
        "condition" = false)) :=
  ⟨by decide,
   ConditionalExtension_init_default
     [("sources", KwVal.strList ["twisted/runner/portmap.c"]),
      ("libraries", KwVal.strList [])] linuxCPythonEnv (by decide)⟩

end TwistedDist
